import Mathlib

/-!
Shallow embedding of the retrieval and answer-generation core of
`src/app.py` (Yardstick RAG bot), together with theorems settling the
specification claims about it.

Python strings are modelled as Lean `String` (with the Python string
operations `lower`, `split`, `strip`, `count`, `in` and `join`
re-implemented structurally on `List Char` so that all definitions are
kernel-evaluable); Python floats as `ℝ`; Python `None` as `Option.none`;
the external embedding / generation API calls as explicit parameters.
-/

namespace YardstickRag

/-- Python `s.lower()` on the character list of a string. -/
def lower (s : List Char) : List Char := s.map Char.toLower

/-- Accumulator pass for Python `s.split()`: split on runs of whitespace,
discarding empty pieces.  `acc` holds the current word, reversed. -/
def splitWSAux : List Char → List Char → List (List Char)
  | [], acc => if acc.isEmpty then [] else [acc.reverse]
  | c :: rest, acc =>
    if c.isWhitespace then
      if acc.isEmpty then splitWSAux rest [] else acc.reverse :: splitWSAux rest []
    else splitWSAux rest (c :: acc)

/-- Python `s.split()` (no separator argument). -/
def pySplitWS (s : List Char) : List (List Char) := splitWSAux s []

/-- Python `s.strip()`: remove leading and trailing whitespace. -/
def pyStrip (s : List Char) : List Char :=
  (((s.dropWhile Char.isWhitespace).reverse.dropWhile Char.isWhitespace).reverse)

/-- Python `s.strip()` at the `String` level. -/
def pyStripStr (s : String) : String := String.mk (pyStrip s.data)

/-- Python `s.lower()` at the `String` level. -/
def pyLowerStr (s : String) : String := String.mk (lower s.data)

/-- Python `pat in hay` for strings: `pat` occurs as a contiguous
substring of `hay` (the empty pattern always occurs). -/
def listContains (pat : List Char) : List Char → Bool
  | [] => pat.isEmpty
  | c :: rest => pat.isPrefixOf (c :: rest) || listContains pat rest

/-- Fuel-driven scanner for Python `str.count`: number of non-overlapping
occurrences of `pat` in the haystack, scanning left to right.  The fuel is
the haystack length, which suffices for non-empty `pat`. -/
def countOccFuel (pat : List Char) : Nat → List Char → Nat
  | 0, _ => 0
  | _ + 1, [] => 0
  | fuel + 1, c :: rest =>
    if pat.isPrefixOf (c :: rest) then
      1 + countOccFuel pat fuel (rest.drop (pat.length - 1))
    else
      countOccFuel pat fuel rest

/-- Python `hay.count(pat)` (non-overlapping occurrences; Python returns
`len(hay) + 1` for the empty pattern). -/
def countOcc (pat hay : List Char) : Nat :=
  if pat.isEmpty then hay.length + 1 else countOccFuel pat hay.length hay

/-- Python `sep.join(parts)`. -/
def pyJoin (sep : String) : List String → String
  | [] => ""
  | [d] => d
  | d :: rest => d ++ sep ++ pyJoin sep rest

/-- The order used by Python `list.sort(reverse=True)` on `(score, index)`
pairs: `pairDesc a b` says `a` may come before `b`, i.e. `a` is
lexicographically at least `b`. -/
def pairDesc {α β : Type} [LinearOrder α] [LinearOrder β] (a b : α × β) : Prop :=
  b.1 < a.1 ∨ (b.1 = a.1 ∧ b.2 ≤ a.2)

instance pairDescDecidable {α β : Type} [LinearOrder α] [LinearOrder β] :
    DecidableRel (@pairDesc α β _ _) := fun a b =>
  decidable_of_iff (b.1 < a.1 ∨ (b.1 = a.1 ∧ b.2 ≤ a.2)) Iff.rfl

/-- The token part of `keyword_search` score for one document:
`sum(doc_lower.count(kw) for kw in keywords)` with
`keywords = query.lower().split()`. -/
def keywordTokenScore (query doc : String) : Nat :=
  ((pySplitWS (lower query.data)).map (fun kw => countOcc kw (lower doc.data))).sum

/-- The full per-document score of `keyword_search` in `app.py`:
token-occurrence count plus a flat bonus of 100 when the whole lowered
query appears as a substring of the lowered document. -/
def keywordScore (query doc : String) : Nat :=
  if listContains (lower query.data) (lower doc.data) then
    keywordTokenScore query doc + 100
  else
    keywordTokenScore query doc

/-- The `scored` list built by `keyword_search`: one `(score, index)` pair
per document with a strictly positive score. -/
def keywordScored (documents : List String) (query : String) : List (Nat × Nat) :=
  documents.enum.filterMap (fun p =>
    if 0 < keywordScore query p.2 then some (keywordScore query p.2, p.1) else none)

/-- `keyword_search(query, k)` from `app.py`, with the loaded document list
made explicit: score every document, keep positive scores, sort the
`(score, index)` pairs in descending pair order, return the top `k`
documents. -/
def keyword_search (documents : List String) (query : String) (k : Nat) : List String :=
  ((List.insertionSort pairDesc (keywordScored documents query)).take k).map
    (fun p => documents.getD p.2 "")

/-- `math.sqrt(sum(x*x for x in a))` from `consine_similarity` in `app.py`. -/
noncomputable def magnitude (a : List ℝ) : ℝ :=
  Real.sqrt ((a.map (fun x => x * x)).sum)

/-- `consine_similarity(a, b)` from `app.py` (keeping the spelling used in the source):
dot product over the zipped vectors divided by the product of magnitudes,
returning `0` when either magnitude is zero. -/
noncomputable def consine_similarity (a b : List ℝ) : ℝ :=
  if magnitude a = 0 ∨ magnitude b = 0 then 0
  else ((List.zipWith (fun x y => x * y) a b).sum) / (magnitude a * magnitude b)

/-- The embeddings-available branch of `semantic_search` in `app.py`:
for each stored embedding the code appends the pair `(sim, 1)` — the
literal constant `1`, not the enumeration index — sorts the pairs in
descending order and maps the second components back into `documents`. -/
noncomputable def semantic_search_core (documents : List String)
    (doc_embeddings : List (List ℝ)) (query_emb : List ℝ) (k : Nat) : List String :=
  ((List.insertionSort pairDesc (doc_embeddings.map
      (fun doc_emb => (consine_similarity query_emb doc_emb, (1 : Nat))))).take k).map
    (fun p => documents.getD p.2 "")

/-- The two module-level globals of `app.py`: `documents` and
`doc_embeddings`, both initially `None`. -/
structure AppState where
  documents : Option (List String)
  doc_embeddings : Option (List (List ℝ))

/-- The process state at startup: nothing loaded. -/
def initialState : AppState := ⟨none, none⟩

/-- `load_documents()` from `app.py`, with the contents of the two files made
explicit: on first call (`documents is None`) load the document list and,
when the embeddings file exists, the embedding list (`embFile = none`
models `FileNotFoundError`). -/
def load_documents (docsFile : List String) (embFile : Option (List (List ℝ)))
    (s : AppState) : AppState :=
  if s.documents.isNone then
    { documents := some docsFile, doc_embeddings := embFile }
  else s

/-- `keyword_search` as invoked in `app.py`: it first calls
`load_documents()` and then scores the loaded document list. -/
def keyword_search_run (docsFile : List String) (embFile : Option (List (List ℝ)))
    (query : String) (k : Nat) (s : AppState) : List String × AppState :=
  let s1 := load_documents docsFile embFile s
  (keyword_search (s1.documents.getD []) query k, s1)

/-- `semantic_search(query, k)` from `app.py`: load the documents, obtain
the query embedding (`query_emb = none` models a failed
`get_embedding` call), and fall back to `keyword_search` when either the
query embedding or the stored embeddings are `None`. -/
noncomputable def semantic_search_run (docsFile : List String)
    (embFile : Option (List (List ℝ))) (query : String)
    (query_emb : Option (List ℝ)) (k : Nat) (s : AppState) : List String × AppState :=
  let s1 := load_documents docsFile embFile s
  if query_emb.isNone || s1.doc_embeddings.isNone then
    (keyword_search (s1.documents.getD []) query k, s1)
  else
    (semantic_search_core (s1.documents.getD []) (s1.doc_embeddings.getD [])
      (query_emb.getD []) k, s1)

/-- Python truthiness of an optional list (`if doc_embeddings:`):
false for `None` and for the empty list. -/
def pyTruthy {α : Type} : Option (List α) → Bool
  | none => false
  | some l => !l.isEmpty

/-- The retrieval step of `generate_answer` in `app.py`:
`semantic_search(query, k=5)` when the *current* global `doc_embeddings`
is truthy, else `keyword_search(query, k=10)`. -/
noncomputable def retrieve_run (docsFile : List String)
    (embFile : Option (List (List ℝ))) (query : String)
    (query_emb : Option (List ℝ)) (s : AppState) : List String × AppState :=
  if pyTruthy s.doc_embeddings then
    semantic_search_run docsFile embFile query query_emb 5 s
  else
    keyword_search_run docsFile embFile query 10 s

/-- The fixed no-information message of `generate_answer`. -/
def NO_INFO_MSG : String :=
  "I don\u0027t have information about that. Please ask about doctors, facilities, or hospital services."

/-- The fixed fallback message returned when the generation call raises. -/
def GEMINI_FALLBACK_MSG : String :=
  "I\u0027m having trouble processing your request. Please try again in a moment."

/-- the blank-line join `context` built by from `generate_answer`. -/
def build_context (relevant_docs : List String) : String :=
  pyJoin "\n\n" relevant_docs

/-- The f-string prompt template of `generate_answer`. -/
def promptText (context query : String) : String :=
  "Yardstick AI assistant: helpful, professional, concise.\n\nAnswer from context (2-3 sentences, benefit-focused). If missing info: acknowledge + offer free strategy call. Pricing: \"Depends on needs - what\u0027s your use case?\" Technical: redirect to team. Contact: contact@yardstick.live | +917891053001\n\nNever fabricate. Stay positive.\n"
    ++ context ++ "\n\nUser QUESTION: " ++ query ++ "\n\nYOUR ANSWER:"

/-- `generate_answer(query)` from `app.py`.  The external Gemini call is
modelled by `llm : String → Option String`, mapping the composed prompt to
the response text (`none` models a raised exception).  Returns the answer
string and the resulting global state. -/
noncomputable def generate_answer_run (docsFile : List String)
    (embFile : Option (List (List ℝ))) (query : String)
    (query_emb : Option (List ℝ)) (llm : String → Option String)
    (s : AppState) : String × AppState :=
  let r := retrieve_run docsFile embFile query query_emb s
  if r.1.isEmpty then (NO_INFO_MSG, r.2)
  else
    match llm (promptText (build_context r.1) query) with
    | some t => (pyStripStr t, r.2)
    | none => (GEMINI_FALLBACK_MSG, r.2)

/-- Modelled from the spec: the Answer Cache capacity.  The cache itself is
not present in `src/app.py` (the spec documents it from the second app
variant of the repository). -/
def CACHE_MAX : Nat := 100

/-- Modelled from the spec: the cache key is a content hash of the
lower-cased, trimmed query; the hash is modelled by the normalized text
itself. -/
def cacheNormalize (q : String) : String := pyLowerStr (pyStripStr q)

/-- Modelled from the spec: `put(query, answer)` on the Answer Cache, an
insertion-ordered association list (oldest entry first) capped at
`CACHE_MAX`; at capacity the oldest-inserted entry is evicted before the
new entry is appended. -/
def cachePut (c : List (String × String)) (q a : String) : List (String × String) :=
  if CACHE_MAX ≤ c.length then c.drop 1 ++ [(cacheNormalize q, a)]
  else c ++ [(cacheNormalize q, a)]

/-- A whole sequence of cache insertions starting from the empty cache. -/
def cachePutAll (ops : List (String × String)) : List (String × String) :=
  ops.foldl (fun c p => cachePut c p.1 p.2) []

lemma cachePut_length_le (c : List (String × String)) (q a : String)
    (h : c.length ≤ CACHE_MAX) : (cachePut c q a).length ≤ CACHE_MAX := by
  unfold cachePut CACHE_MAX at *
  split
  · simp only [List.length_append, List.length_drop, List.length_singleton]
    omega
  · simp only [List.length_append, List.length_singleton]
    omega

lemma cachePutAll_le_aux (ops : List (String × String)) :
    ∀ c : List (String × String), c.length ≤ CACHE_MAX →
      (ops.foldl (fun c p => cachePut c p.1 p.2) c).length ≤ CACHE_MAX := by
  induction ops with
  | nil => intro c h; exact h
  | cons p rest ih =>
    intro c h
    exact ih _ (cachePut_length_le c p.1 p.2 h)

/-- C2: the answer cache never holds more than `CACHE_MAX = 100` entries;
an insertion at capacity evicts exactly the oldest-inserted entry before
appending the new one (cache modelled from the spec). -/
theorem answer_cache_bounded :
    (∀ ops : List (String × String),
        (ops.map (fun p => cacheNormalize p.1)).Nodup →
        (cachePutAll ops).length ≤ CACHE_MAX)
    ∧ (∀ (c : List (String × String)) (q a : String), c.length = CACHE_MAX →
        cachePut c q a = c.drop 1 ++ [(cacheNormalize q, a)]
        ∧ (cachePut c q a).length = CACHE_MAX) := by
  constructor
  · intro ops _
    exact cachePutAll_le_aux ops [] (by simp [CACHE_MAX])
  · intro c q a h
    constructor
    · unfold cachePut
      rw [if_pos (le_of_eq h.symm)]
    · unfold cachePut
      rw [if_pos (le_of_eq h.symm)]
      simp [CACHE_MAX] at h ⊢
      omega

/-- Witness for C2 at concrete inputs: a single insertion stays within the
bound, and an insertion into a full 100-entry cache drops the oldest entry
and keeps the size at 100. -/
theorem answer_cache_bounded_witness :
    (cachePutAll [("Q1", "A1")]).length ≤ CACHE_MAX
    ∧ (cachePut (List.replicate 100 ("k", "v")) "Q" "A"
        = (List.replicate 100 ("k", "v")).drop 1 ++ [(cacheNormalize "Q", "A")]
      ∧ (cachePut (List.replicate 100 ("k", "v")) "Q" "A").length = CACHE_MAX) :=
  ⟨answer_cache_bounded.1 [("Q1", "A1")] (by decide),
   answer_cache_bounded.2 (List.replicate 100 ("k", "v")) "Q" "A" (by decide)⟩

/-- C8: `consine_similarity` returns exactly `0` whenever either input has
zero magnitude — in particular on zero vectors — so the division is
guarded and can never be a division by zero. -/
theorem cosine_zero_guard :
    (∀ a b : List ℝ, a.length = b.length →
        magnitude a = 0 ∨ magnitude b = 0 → consine_similarity a b = 0)
    ∧ (∀ n : Nat, magnitude (List.replicate n (0 : ℝ)) = 0) := by
  constructor
  · intro a b _ h
    unfold consine_similarity
    exact if_pos h
  · intro n
    unfold magnitude
    simp

/-- Witness for C8: the zero vector against a non-zero vector of the same
length yields exactly `0`. -/
theorem cosine_zero_guard_witness :
    consine_similarity [0, 0] [1, 2] = 0 :=
  cosine_zero_guard.1 [0, 0] [1, 2] rfl (Or.inl (cosine_zero_guard.2 2))

/-- C9: `consine_similarity` is symmetric on equal-length vectors. -/
theorem cosine_symm :
    ∀ a b : List ℝ, a.length = b.length →
      consine_similarity a b = consine_similarity b a := by
  intro a b _
  unfold consine_similarity
  rw [List.zipWith_comm_of_comm _ mul_comm a b,
    mul_comm (magnitude a) (magnitude b)]
  by_cases h : magnitude a = 0 ∨ magnitude b = 0
  · rw [if_pos h, if_pos h.symm]
  · rw [if_neg h, if_neg (fun hc => h hc.symm)]

/-- Witness for C9 at a concrete pair of equal-length vectors. -/
theorem cosine_symm_witness :
    consine_similarity [1, 2] [3, 4] = consine_similarity [3, 4] [1, 2] :=
  cosine_symm [1, 2] [3, 4] rfl

/-- C6: when the embedding call fails (`query_emb = none`),
`semantic_search` delegates to `keyword_search` and returns exactly its
result; likewise on a fresh state when no embeddings file exists.  Both
sides are total, so the failure never aborts the request. -/
theorem embedding_failure_falls_back :
    (∀ (docsFile : List String) (embFile : Option (List (List ℝ)))
        (query : String) (k : Nat) (s : AppState),
        semantic_search_run docsFile embFile query none k s
          = keyword_search_run docsFile embFile query k s)
    ∧ (∀ (docsFile : List String) (query : String) (query_emb : Option (List ℝ))
        (k : Nat) (s : AppState), s.documents = none →
        semantic_search_run docsFile none query query_emb k s
          = keyword_search_run docsFile none query k s) := by
  constructor
  · intro docsFile embFile query k s
    rfl
  · intro docsFile query query_emb k s h
    simp [semantic_search_run, keyword_search_run, load_documents, h]

/-- Witness for C6: on the fresh state with no embeddings file, semantic
search with an available query embedding still equals keyword search. -/
theorem embedding_failure_falls_back_witness :
    semantic_search_run ["doc"] none "q" (some [1]) 5 initialState
      = keyword_search_run ["doc"] none "q" 5 initialState :=
  embedding_failure_falls_back.2 ["doc"] "q" (some [1]) 5 initialState rfl

/-- C10: on the initial process state (both globals `None`),
`generate_answer` selects keyword search with `k = 10` regardless of
whether an embeddings file exists on disk, because the mode decision reads
the `doc_embeddings` global before `load_documents` has run; the load
triggered by that same request does store the embeddings file for later
requests. -/
theorem initial_request_uses_keyword_search :
    ∀ (docsFile : List String) (embFile : Option (List (List ℝ)))
      (query : String) (query_emb : Option (List ℝ)),
      retrieve_run docsFile embFile query query_emb initialState
        = (keyword_search docsFile query 10,
           { documents := some docsFile, doc_embeddings := embFile })
      ∧ (load_documents docsFile embFile initialState).doc_embeddings = embFile := by
  intro docsFile embFile query query_emb
  exact ⟨rfl, rfl⟩

/-- C7: `generate_answer` never raises and always yields a string: when
retrieval is empty it returns the fixed no-information message; when
retrieval is non-empty and the external generation call on the composed
prompt fails, it returns the fixed apologetic fallback; and in every case
the result is the no-information message, the apologetic fallback, or the
stripped text of a successful generation call. -/
theorem generate_answer_always_answers :
    ∀ (docsFile : List String) (embFile : Option (List (List ℝ)))
      (query : String) (query_emb : Option (List ℝ))
      (llm : String → Option String) (s : AppState),
      ((retrieve_run docsFile embFile query query_emb s).1 = [] →
        (generate_answer_run docsFile embFile query query_emb llm s).1 = NO_INFO_MSG)
      ∧ ((retrieve_run docsFile embFile query query_emb s).1 ≠ [] →
        llm (promptText
          (build_context (retrieve_run docsFile embFile query query_emb s).1) query) = none →
        (generate_answer_run docsFile embFile query query_emb llm s).1
          = GEMINI_FALLBACK_MSG)
      ∧ ((generate_answer_run docsFile embFile query query_emb llm s).1 = NO_INFO_MSG
        ∨ (generate_answer_run docsFile embFile query query_emb llm s).1
            = GEMINI_FALLBACK_MSG
        ∨ ∃ t, llm (promptText
              (build_context (retrieve_run docsFile embFile query query_emb s).1) query)
            = some t
          ∧ (generate_answer_run docsFile embFile query query_emb llm s).1
            = pyStripStr t) := by
  intro docsFile embFile query query_emb llm s
  refine ⟨?_, ?_, ?_⟩
  · intro h
    simp [generate_answer_run, h]
  · intro hne hfail
    have h : (retrieve_run docsFile embFile query query_emb s).1.isEmpty = false := by
      cases hl : (retrieve_run docsFile embFile query query_emb s).1 with
      | nil => exact absurd hl hne
      | cons x xs => rfl
    simp [generate_answer_run, h, hfail]
  · by_cases h : (retrieve_run docsFile embFile query query_emb s).1.isEmpty = true
    · left
      simp [generate_answer_run, h]
    · cases hcall : llm (promptText
          (build_context (retrieve_run docsFile embFile query query_emb s).1) query) with
      | none =>
        right; left
        simp [generate_answer_run, h, hcall]
      | some t =>
        right; right
        exact ⟨t, rfl, by simp [generate_answer_run, h, hcall]⟩

/-- Witness for C7 at a concrete request whose retrieval is non-empty
(the corpus document matches the query) and whose external generation
call fails: the answer is exactly the fixed apologetic fallback. -/
theorem generate_answer_always_answers_witness :
    (generate_answer_run ["q doc"] none "q" none (fun _ => none) initialState).1
      = GEMINI_FALLBACK_MSG :=
  (generate_answer_always_answers ["q doc"] none "q" none (fun _ => none)
    initialState).2.1 (by decide) rfl

lemma semantic_search_core_const (documents : List String)
    (doc_embeddings : List (List ℝ)) (query_emb : List ℝ) (k : Nat) :
    semantic_search_core documents doc_embeddings query_emb k
      = List.replicate (min k doc_embeddings.length) (documents.getD 1 "") := by
  unfold semantic_search_core
  rw [List.eq_replicate_iff]
  constructor
  · rw [List.length_map, List.length_take,
      (List.perm_insertionSort pairDesc _).length_eq, List.length_map]
  · intro b hb
    rcases List.mem_map.mp hb with ⟨p, hp, rfl⟩
    have hmem : p ∈ doc_embeddings.map
        (fun doc_emb => (consine_similarity query_emb doc_emb, (1 : Nat))) :=
      (List.perm_insertionSort pairDesc _).mem_iff.mp (List.mem_of_mem_take hp)
    rcases List.mem_map.mp hmem with ⟨e, _, hpe⟩
    rw [← hpe]

/-- C1 (code bug): `semantic_search` appends the pair `(sim, 1)` instead of
`(sim, i)`, so at a concrete input where document 0 is strictly more
similar than document 1 it still returns document 1 twice instead of the
documents ordered by similarity. -/
theorem semantic_search_code_bug :
    semantic_search_core ["d0", "d1"] [[1, 0], [0, 1]] [1, 0] 5 = ["d1", "d1"]
    ∧ consine_similarity [1, 0] [0, 1] < consine_similarity [1, 0] [1, 0] := by
  constructor
  · rw [semantic_search_core_const]
    rfl
  · have h10 : magnitude [1, 0] = 1 := by
      unfold magnitude
      simp
    have h01 : magnitude [0, 1] = 1 := by
      unfold magnitude
      simp
    have hc1 : consine_similarity [1, 0] [1, 0] = 1 := by
      unfold consine_similarity
      rw [if_neg (by rw [h10]; norm_num)]
      rw [h10]
      norm_num
    have hc0 : consine_similarity [1, 0] [0, 1] = 0 := by
      unfold consine_similarity
      rw [if_neg (by rw [h10, h01]; norm_num)]
      norm_num
    rw [hc0, hc1]
    norm_num

/-- C4 (counterexample): with four retrieved passages the generator builds
the context from all of them: the fourth passage occurs in the context,
and the context differs from the join of only the top three. -/
theorem context_counterexample :
    listContains "d".data (build_context ["a", "b", "c", "d"]).data = true
    ∧ build_context ["a", "b", "c", "d"]
        ≠ build_context (List.take 3 ["a", "b", "c", "d"]) := by
  decide

/-- C4 (amended): the context interpolated into the prompt joins ALL
retrieved passages with a blank-line separator — every retrieved passage,
also beyond the third, occurs as a substring of the context. -/
theorem context_joins_all_passages :
    ∀ (relevant_docs : List String) (d : String), d ∈ relevant_docs →
      d.data <:+: (build_context relevant_docs).data := by
  intro docs
  induction docs with
  | nil =>
    intro d hd
    cases hd
  | cons a rest ih =>
    intro d hd
    cases rest with
    | nil =>
      cases hd with
      | head => exact List.infix_rfl
      | tail _ h => cases h
    | cons b rest2 =>
      have hstep : build_context (a :: b :: rest2)
          = a ++ "\n\n" ++ build_context (b :: rest2) := rfl
      cases hd with
      | head =>
        have h1 : a.data <+: a.data ++ ("\n\n".data ++ (build_context (b :: rest2)).data) :=
          List.prefix_append _ _
        rw [← List.append_assoc] at h1
        rw [hstep]
        exact h1.isInfix
      | tail _ hmem =>
        rw [hstep]
        exact (ih d hmem).trans (List.suffix_append (a.data ++ "\n\n".data)
          (build_context (b :: rest2)).data).isInfix

/-- Witness for C4 (amended): the fourth of four retrieved passages occurs
in the built context. -/
theorem context_joins_all_passages_witness :
    "d".data <:+: (build_context ["a", "b", "c", "d"]).data :=
  context_joins_all_passages ["a", "b", "c", "d"] "d" (by decide)

set_option maxRecDepth 8000 in
/-- C3 (counterexample): a document consisting of 103 copies of the
keyword `a` outscores the document containing the exact query phrase
`a b` (score 103 against 102), although it does not contain the phrase. -/
theorem phrase_bonus_counterexample :
    keywordScore "a b" "a b" < keywordScore "a b" (String.mk (List.replicate 103 'a'))
    ∧ listContains (lower "a b".data)
        (lower (String.mk (List.replicate 103 'a')).data) = false := by
  decide

/-- C3 (amended): a document containing the whole lowered query as a
substring scores at least as high as any document that does not contain it
and whose token-occurrence score is at most 100 (the flat phrase bonus). -/
theorem phrase_match_dominates :
    ∀ (query docA docB : String),
      listContains (lower query.data) (lower docA.data) = true →
      listContains (lower query.data) (lower docB.data) = false →
      keywordTokenScore query docB ≤ 100 →
      keywordScore query docB ≤ keywordScore query docA := by
  intro query docA docB hA hB hle
  unfold keywordScore
  rw [hA, hB]
  simp
  omega

/-- Witness for C3 (amended) at concrete documents: the phrase-bearing
document outranks a token-only document with a small token score. -/
theorem phrase_match_dominates_witness :
    keywordScore "a b" "aaa" ≤ keywordScore "a b" "a b" :=
  phrase_match_dominates "a b" "a b" "aaa" (by decide) (by decide) (by decide)

lemma keywordScored_from (query : String) (full : List String) :
    ∀ (docs : List String) (n : Nat),
      (∀ j, j < docs.length → full.getD (n + j) "" = docs.getD j "") →
      ((docs.enumFrom n).filterMap (fun p =>
          if 0 < keywordScore query p.2 then some (keywordScore query p.2, p.1) else none)).map
        (fun p => full.getD p.2 "")
        = docs.filter (fun d => decide (0 < keywordScore query d)) := by
  intro docs
  induction docs with
  | nil =>
    intro n _
    rfl
  | cons d rest ih =>
    intro n h
    have h0 : full.getD n "" = d := by simpa using h 0 (by simp)
    have hrest : ∀ j, j < rest.length → full.getD (n + 1 + j) "" = rest.getD j "" := by
      intro j hj
      have e : n + 1 + j = n + (j + 1) := by omega
      rw [e]
      simpa using h (j + 1) (by simpa using Nat.succ_lt_succ hj)
    rw [List.enumFrom_cons]
    by_cases hd : 0 < keywordScore query d
    · have e1 : List.filterMap (fun p =>
            if 0 < keywordScore query p.2 then some (keywordScore query p.2, p.1) else none)
          ((n, d) :: List.enumFrom (n + 1) rest)
          = (keywordScore query d, n) :: List.filterMap (fun p =>
              if 0 < keywordScore query p.2 then some (keywordScore query p.2, p.1) else none)
            (List.enumFrom (n + 1) rest) := by
        simp [hd]
      rw [e1, List.map_cons, List.filter_cons_of_pos (by simp [hd]), ih (n + 1) hrest]
      show full.getD n "" :: _ = _
      rw [h0]
    · have e1 : List.filterMap (fun p =>
            if 0 < keywordScore query p.2 then some (keywordScore query p.2, p.1) else none)
          ((n, d) :: List.enumFrom (n + 1) rest)
          = List.filterMap (fun p =>
              if 0 < keywordScore query p.2 then some (keywordScore query p.2, p.1) else none)
            (List.enumFrom (n + 1) rest) := by
        simp [hd]
      rw [e1, List.filter_cons_of_neg (by simp [hd]), ih (n + 1) hrest]

lemma keywordScored_map_getD (documents : List String) (query : String) :
    (keywordScored documents query).map (fun p => documents.getD p.2 "")
      = documents.filter (fun d => decide (0 < keywordScore query d)) := by
  unfold keywordScored
  have := keywordScored_from query documents documents 0 (by intro j hj; simp)
  simpa [List.enum] using this

/-- C5: `keyword_search` returns only documents with strictly positive
keyword score; when `k` is at least the count of positive-scoring
documents it returns exactly those documents (a permutation of them, so
nothing fabricated or repeated); when nothing scores positively it
returns the empty list. -/
theorem keyword_search_exact :
    ∀ (documents : List String) (query : String) (k : Nat),
      (∀ d ∈ keyword_search documents query k, 0 < keywordScore query d)
      ∧ ((documents.filter (fun d => decide (0 < keywordScore query d))).length ≤ k →
          (keyword_search documents query k).Perm
            (documents.filter (fun d => decide (0 < keywordScore query d))))
      ∧ ((∀ d ∈ documents, keywordScore query d = 0) →
          keyword_search documents query k = []) := by
  intro documents query k
  have hperm : (List.insertionSort pairDesc (keywordScored documents query)).Perm
      (keywordScored documents query) := List.perm_insertionSort _ _
  have hmap := keywordScored_map_getD documents query
  have main2 : (documents.filter (fun d => decide (0 < keywordScore query d))).length ≤ k →
      (keyword_search documents query k).Perm
        (documents.filter (fun d => decide (0 < keywordScore query d))) := by
    intro hk
    have h2 : (keywordScored documents query).length
        = (documents.filter (fun d => decide (0 < keywordScore query d))).length := by
      rw [← hmap, List.length_map]
    have hlen : (List.insertionSort pairDesc (keywordScored documents query)).length ≤ k := by
      have h1 := hperm.length_eq
      omega
    unfold keyword_search
    rw [List.take_of_length_le hlen, ← hmap]
    exact hperm.map _
  refine ⟨?_, main2, ?_⟩
  · intro d hd
    unfold keyword_search at hd
    rcases List.mem_map.mp hd with ⟨p, hp, rfl⟩
    have hps : p ∈ keywordScored documents query :=
      hperm.mem_iff.mp (List.mem_of_mem_take hp)
    have hmem : documents.getD p.2 ""
        ∈ (keywordScored documents query).map (fun p => documents.getD p.2 "") :=
      List.mem_map_of_mem _ hps
    rw [hmap] at hmem
    simpa using (List.mem_filter.mp hmem).2
  · intro hzero
    have hfil : documents.filter (fun d => decide (0 < keywordScore query d)) = [] := by
      rw [List.filter_eq_nil_iff]
      intro d hd
      simp [hzero d hd]
    have hres := main2 (by rw [hfil]; simp)
    rw [hfil] at hres
    exact hres.eq_nil

/-- Witness for C5 at concrete inputs: with `k` larger than the number of
matches, the result is exactly the positive-scoring documents; a corpus
with no match yields the empty list. -/
theorem keyword_search_exact_witness :
    (keyword_search ["yard ai", "zzz"] "ai" 5).Perm
      (["yard ai", "zzz"].filter (fun d => decide (0 < keywordScore "ai" d)))
    ∧ keyword_search ["zzz"] "ai" 5 = [] :=
  ⟨(keyword_search_exact ["yard ai", "zzz"] "ai" 5).2.1 (by decide),
   (keyword_search_exact ["zzz"] "ai" 5).2.2 (by decide)⟩

end YardstickRag
